import Mathlib

/-!
Shallow embedding of the multi-provider LLM rotation core of
`src/core/llm_provider.py` (classes `APIKey`, `Provider`, the per-vendor
adapters, and `LLMProviderRotator`), together with theorems settling the
specification's claims about it.

Modelling conventions:
* Wall-clock time is a `Nat` counting seconds; `timedelta(hours=24)` is
  86400 seconds.  Python's `datetime.now() - self.last_reset >=
  timedelta(hours=24)` becomes `86400 ≤ now - k.last_reset` on `Nat`
  (truncated subtraction gives 0 when `last_reset` lies in the future,
  which like Python's negative difference fails the test, since 86400 > 0).
* Python methods mutate objects in place; here every operation returns
  the updated record alongside its result.  A key checked or charged
  inside a provider's list is written back at its position, mirroring
  Python's aliasing of the list element.
* Reading `api_keys[current_key_index]` with an out-of-range cursor
  raises `IndexError` in Python; operations that index this way return
  `Option`, with `none` standing for that crash.
* The HTTP layer is an oracle: each retry attempt receives an
  `HttpOutcome` (a status code with the text the vendor adapter would
  extract on 200, or a raised exception's message).  All five vendor
  adapters classify responses identically (200 / 429 / other / raised),
  so a single `adapterGenerate` parameterised by the provider name
  embeds them.
* `base_url`, `model` and `request_timeout` never influence control flow
  or any claimed property; they are omitted from the `Provider` record.
-/

/-- `ProviderStatus` enum of `llm_provider.py`. -/
inductive ProviderStatus where
  | ACTIVE
  | RATE_LIMITED
  | ERROR
  | DISABLED
deriving DecidableEq, Repr

/-- The `APIKey` dataclass: a quota-tracked credential record. -/
structure APIKey where
  key : String
  provider : String
  daily_limit : Nat := 100000
  used_today : Nat := 0
  last_reset : Nat := 0
  status : ProviderStatus := ProviderStatus.ACTIVE
  error_count : Nat := 0
deriving DecidableEq, Repr

/-- `APIKey.reset_if_needed`: reset daily usage if 24 hours have passed. -/
def resetIfNeeded (now : Nat) (k : APIKey) : Bool × APIKey :=
  if 86400 ≤ now - k.last_reset then
    (true, { k with used_today := 0, last_reset := now,
                    status := ProviderStatus.ACTIVE })
  else
    (false, k)

/-- `APIKey.remaining` property: `max(0, daily_limit - used_today)` after the
lazy reset (`Nat` subtraction is exactly `max 0` of the integer difference). -/
def remaining (now : Nat) (k : APIKey) : Nat × APIKey :=
  let k1 := (resetIfNeeded now k).2
  (k1.daily_limit - k1.used_today, k1)

/-- `APIKey.is_available` property: lazy reset, then
`status == ACTIVE and remaining > 0` (Python's `and` short-circuits, so
`remaining` — and its second, always no-op reset — only runs when the status
test passed). -/
def isAvailable (now : Nat) (k : APIKey) : Bool × APIKey :=
  let k1 := (resetIfNeeded now k).2
  if k1.status = ProviderStatus.ACTIVE then
    let r := remaining now k1
    (0 < r.1, r.2)
  else
    (false, k1)

/-- The `Provider` dataclass (URL/model/timeout fields omitted, see header). -/
structure Provider where
  name : String
  api_keys : List APIKey
  current_key_index : Nat := 0
deriving Repr

/-- Loop body of `Provider.get_next_available_key`, fuelled by the remaining
iteration count of `for _ in range(len(self.api_keys))`.  Returns `none` on
`IndexError` (cursor out of range); otherwise the found key together with its
position (Python returns the aliased list element), and the updated provider.
The checked key is written back at its position because `is_available`
mutates it in place in Python. -/
def gnakGo (now : Nat) : Nat → Provider → Option (Option (APIKey × Nat) × Provider)
  | 0, p => some (none, p)
  | fuel + 1, p =>
    match p.api_keys[p.current_key_index]? with
    | none => none
    | some k =>
      let idx := p.current_key_index
      let p1 := { p with current_key_index := (idx + 1) % p.api_keys.length }
      let c := isAvailable now k
      let p2 := { p1 with api_keys := p1.api_keys.set idx c.2 }
      if c.1 then
        some (some (c.2, idx), p2)
      else
        gnakGo now fuel p2

/-- `Provider.get_next_available_key`: bounded round-robin scan over at most
`len(api_keys)` positions. -/
def getNextAvailableKey (now : Nat) (p : Provider) :
    Option (Option (APIKey × Nat) × Provider) :=
  gnakGo now p.api_keys.length p

/-- The `stats` dictionary of `LLMProviderRotator`; `provider_usage` is the
inner string-keyed dictionary, embedded as an association list. -/
structure Stats where
  total_requests : Nat := 0
  successful_requests : Nat := 0
  failed_requests : Nat := 0
  provider_usage : List (String × Nat) := []
deriving DecidableEq, Repr

/-- `provider_usage.get(name, 0)`. -/
def usageGet (u : List (String × Nat)) (name : String) : Nat :=
  match u.find? (fun e => e.1 == name) with
  | some e => e.2
  | none => 0

/-- `provider_usage[name] = value`: overwrite the entry if present, append
otherwise (Python dict update). -/
def usageSet : List (String × Nat) → String → Nat → List (String × Nat)
  | [], name, v => [(name, v)]
  | e :: es, name, v =>
    if e.1 == name then (name, v) :: es else e :: usageSet es name v

/-- The rotator's mutable state (`providers`, `current_provider_index`,
`stats`; the aiohttp session carries no rotation state). -/
structure Rotator where
  providers : List Provider
  current_provider_index : Nat := 0
  stats : Stats := {}
deriving Repr

/-- Loop body of `LLMProviderRotator.get_next_provider`, fuelled by the
remaining iteration count.  Returns the selected provider's position in the
list (Python returns the aliased object); the availability probe
`provider.get_next_available_key()` runs for its side effects even though its
result is only truth-tested, so every probed provider is written back. -/
def gnpGo (now : Nat) : Nat → Rotator → Option (Option Nat × Rotator)
  | 0, r => some (none, r)
  | fuel + 1, r =>
    match r.providers[r.current_provider_index]? with
    | none => none
    | some p =>
      let idx := r.current_provider_index
      let r1 := { r with
        current_provider_index := (idx + 1) % r.providers.length }
      match getNextAvailableKey now p with
      | none => none
      | some (found, p1) =>
        let r2 := { r1 with providers := r1.providers.set idx p1 }
        match found with
        | some _ => some (some idx, r2)
        | none => gnpGo now fuel r2

/-- `LLMProviderRotator.get_next_provider`: bounded round-robin over
providers, selecting the first currently exposing an available key. -/
def getNextProvider (now : Nat) (r : Rotator) : Option (Option Nat × Rotator) :=
  gnpGo now r.providers.length r

/-- One attempt's view of the HTTP layer: a response with its status code and
the text the adapter's extraction would yield on 200, or a raised exception's
message. -/
inductive HttpOutcome where
  | response (status : Nat) (text : String)
  | raised (msg : String)
deriving Repr

/-- The result dictionary returned by adapters and the rotator; absent dict
keys are `none`. -/
structure GenResult where
  success : Bool
  text : Option String := none
  error : Option String := none
  provider : Option String := none
deriving DecidableEq, Repr

/-- The shared classification performed by every vendor adapter's `generate`
(`GeminiProvider.generate` etc.): 200 → charge the key and return the text;
429 → mark the key `RATE_LIMITED`; other status → bump `error_count` and
return `http_<status>`; raised exception → bump `error_count` and return its
message. -/
def adapterGenerate (prompt : String) (providerName : String)
    (outcome : HttpOutcome) (k : APIKey) : GenResult × APIKey :=
  match outcome with
  | HttpOutcome.response status text =>
    if status = 200 then
      ({ success := true, text := some text, provider := some providerName },
       { k with used_today := k.used_today + prompt.length + text.length })
    else if status = 429 then
      ({ success := false, error := some "rate_limited" },
       { k with status := ProviderStatus.RATE_LIMITED })
    else
      ({ success := false, error := some ("http_" ++ toString status) },
       { k with error_count := k.error_count + 1 })
  | HttpOutcome.raised msg =>
    ({ success := false, error := some msg },
     { k with error_count := k.error_count + 1 })

/-- Write the (mutated-in-place) key back at its position inside provider
`pidx` of the rotator. -/
def setKeyAt (r : Rotator) (pidx kidx : Nat) (k : APIKey) : Rotator :=
  { r with providers :=
      match r.providers[pidx]? with
      | some p => r.providers.set pidx
          { p with api_keys := p.api_keys.set kidx k }
      | none => r.providers }

/-- Retry loop of `LLMProviderRotator.generate` (`for attempt in
range(max_retries)`).  `fuel` is the remaining retry budget, `attempt` the
index of the current iteration (also the count of provider-selection attempts
already performed); `clock` gives the wall time at each attempt (the
no-provider branch sleeps 60 s before continuing, so time may advance between
attempts) and `oracle` the HTTP outcome each attempt would observe.  Returns
the result, the final rotator, and the number of attempts consumed.  The
rate-limited and generic-error branches differ only in logging, so both
continue identically. -/
def generateGo (prompt : String) (clock : Nat → Nat) (oracle : Nat → HttpOutcome) :
    Nat → Nat → Rotator → Option (GenResult × Rotator × Nat)
  | 0, attempt, r =>
    some ({ success := false, error := some "all_providers_exhausted" },
          { r with stats :=
              { r.stats with failed_requests := r.stats.failed_requests + 1 } },
          attempt)
  | fuel + 1, attempt, r =>
    let now := clock attempt
    match getNextProvider now r with
    | none => none
    | some (none, r1) =>
      -- no provider selectable: sleep 60 s, continue
      generateGo prompt clock oracle fuel (attempt + 1) r1
    | some (some pidx, r1) =>
      match r1.providers[pidx]? with
      | none => none
      | some p =>
        match getNextAvailableKey now p with
        | none => none
        | some (none, p1) =>
          generateGo prompt clock oracle fuel (attempt + 1)
            { r1 with providers := r1.providers.set pidx p1 }
        | some (some (k, kidx), p1) =>
          let r2 := { r1 with providers := r1.providers.set pidx p1 }
          let call := adapterGenerate prompt p1.name (oracle attempt) k
          let r3 := setKeyAt r2 pidx kidx call.2
          if call.1.success then
            some (call.1,
              { r3 with stats :=
                  { r3.stats with
                    successful_requests := r3.stats.successful_requests + 1,
                    provider_usage := usageSet r3.stats.provider_usage p1.name
                      (usageGet r3.stats.provider_usage p1.name + 1) } },
              attempt + 1)
          else
            generateGo prompt clock oracle fuel (attempt + 1) r3

/-- `LLMProviderRotator.generate`: bump `total_requests`, then run the retry
loop with budget `max_retries`. -/
def generate (prompt : String) (clock : Nat → Nat) (oracle : Nat → HttpOutcome)
    (max_retries : Nat) (r : Rotator) : Option (GenResult × Rotator × Nat) :=
  generateGo prompt clock oracle max_retries 0
    { r with stats :=
        { r.stats with total_requests := r.stats.total_requests + 1 } }

/-- Per-key slice of the persisted state document (`save_state`'s
`key_state`); `last_reset.isoformat()` / `fromisoformat` round-trip is the
identity on timestamps, and `status.value` / `ProviderStatus(...)` is a
bijection on the four statuses, so both are kept in their model types. -/
structure KeyState where
  used_today : Nat
  last_reset : Nat
  status : ProviderStatus
  error_count : Nat
deriving Repr

/-- Per-provider slice of the persisted state document. -/
structure ProviderState where
  name : String
  current_key_index : Nat
  keys : List KeyState
deriving Repr

/-- The persisted JSON document written by `save_state`. -/
structure StateDoc where
  stats : Stats
  current_provider_index : Nat
  providers : List ProviderState
deriving Repr

/-- `save_state`'s per-key serialisation. -/
def saveKey (k : APIKey) : KeyState :=
  { used_today := k.used_today, last_reset := k.last_reset,
    status := k.status, error_count := k.error_count }

/-- `save_state`'s per-provider serialisation. -/
def saveProvider (p : Provider) : ProviderState :=
  { name := p.name, current_key_index := p.current_key_index,
    keys := p.api_keys.map saveKey }

/-- `LLMProviderRotator.save_state` (the JSON document it writes). -/
def saveState (r : Rotator) : StateDoc :=
  { stats := r.stats, current_provider_index := r.current_provider_index,
    providers := r.providers.map saveProvider }

/-- `load_state`'s per-key restore: overwrite the four persisted fields,
keep credential/limit from configuration. -/
def applyKeyState (k : APIKey) (s : KeyState) : APIKey :=
  { k with used_today := s.used_today, last_reset := s.last_reset,
           status := s.status, error_count := s.error_count }

/-- `for i, key_state in enumerate(...): if i < len(api_keys): ...` —
positional overwrite; surplus persisted keys are ignored, surplus configured
keys keep their current state. -/
def applyKeys : List APIKey → List KeyState → List APIKey
  | ks, [] => ks
  | [], _ => []
  | k :: ks, s :: ss => applyKeyState k s :: applyKeys ks ss

/-- `load_state`'s per-provider restore (cursor taken verbatim from the
document, keys positionally). -/
def applyProviderState (p : Provider) (ps : ProviderState) : Provider :=
  { p with current_key_index := ps.current_key_index,
           api_keys := applyKeys p.api_keys ps.keys }

/-- The double loop of `load_state`: each persisted provider entry is applied
to every configured provider with a matching name (there is no `break`). -/
def loadProviders (ps : List Provider) (states : List ProviderState) :
    List Provider :=
  states.foldl
    (fun acc st =>
      acc.map (fun p => if p.name == st.name then applyProviderState p st else p))
    ps

/-- `LLMProviderRotator.load_state` applied to a present, well-formed
document (the `FileNotFoundError` branch is a no-op and not modelled). -/
def loadState (r : Rotator) (doc : StateDoc) : Rotator :=
  { providers := loadProviders r.providers doc.providers,
    current_provider_index := doc.current_provider_index,
    stats := doc.stats }

/-! ## Helper lemmas -/

/-- `is_available` as a pure predicate (the Boolean a check returns). -/
def keyAvailableP (now : Nat) (k : APIKey) : Bool :=
  (isAvailable now k).1

/-- Element of a key list at a position (with a default out of range). -/
def keyAt (ks : List APIKey) (i : Nat) : APIKey :=
  ks.getD i { key := "", provider := "" }

/-- Observable slice of an `APIKey` persisted by `save_state`. -/
def keyObs (k : APIKey) : Nat × Nat × ProviderStatus × Nat :=
  (k.used_today, k.last_reset, k.status, k.error_count)

/-- Observable slice of a `Provider` persisted by `save_state`. -/
def provObs (p : Provider) : String × Nat × List (Nat × Nat × ProviderStatus × Nat) :=
  (p.name, p.current_key_index, p.api_keys.map keyObs)

theorem keyAt_set_ne (ks : List APIKey) (m i : Nat) (x : APIKey) (h : m ≠ i) :
    keyAt (ks.set m x) i = keyAt ks i := by
  unfold keyAt
  rcases Nat.lt_or_ge i ks.length with hi | hi
  · rw [List.getD_eq_getElem _ _ (by simpa using hi),
        List.getD_eq_getElem _ _ hi]
    simp [List.getElem_set_ne h]
  · rw [List.getD_eq_default _ _ (by simpa using hi),
        List.getD_eq_default _ _ hi]

theorem set_keyAt_self (ks : List APIKey) (i : Nat) (h : i < ks.length) :
    ks.set i (keyAt ks i) = ks := by
  induction ks generalizing i with
  | nil => simp at h
  | cons x xs ih =>
    cases i with
    | zero => simp [keyAt]
    | succ j =>
      simp only [List.set]
      rw [show keyAt (x :: xs) (j + 1) = keyAt xs j from rfl,
          ih j (by simpa using h)]

theorem reset_fire (now : Nat) (k : APIKey) (h : 86400 ≤ now - k.last_reset) :
    resetIfNeeded now k =
      (true, { k with used_today := 0, last_reset := now,
                      status := ProviderStatus.ACTIVE }) := by
  unfold resetIfNeeded
  rw [if_pos h]

theorem reset_skip (now : Nat) (k : APIKey) (h : now - k.last_reset < 86400) :
    resetIfNeeded now k = (false, k) := by
  unfold resetIfNeeded
  rw [if_neg (by omega)]

/-- A second lazy-reset check at the same instant is always a no-op. -/
theorem reset_idem (now : Nat) (k : APIKey) :
    resetIfNeeded now ((resetIfNeeded now k).2) = (false, (resetIfNeeded now k).2) := by
  by_cases h : 86400 ≤ now - k.last_reset
  · rw [reset_fire now k h]
    exact reset_skip now _ (by simp)
  · rw [reset_skip now k (by omega)]
    exact reset_skip now k (by omega)

/-- The key an availability check leaves behind is exactly the lazily reset
key. -/
theorem isAvailable_snd (now : Nat) (k : APIKey) :
    (isAvailable now k).2 = (resetIfNeeded now k).2 := by
  simp only [isAvailable, remaining, reset_idem]
  split <;> rfl

/-- The Boolean an availability check returns, in terms of the lazily reset
key. -/
theorem isAvailable_fst (now : Nat) (k : APIKey) :
    (isAvailable now k).1 =
      (decide ((resetIfNeeded now k).2.status = ProviderStatus.ACTIVE) &&
       decide (0 < (resetIfNeeded now k).2.daily_limit
                   - (resetIfNeeded now k).2.used_today)) := by
  simp only [isAvailable, remaining, reset_idem]
  split <;> simp_all

/-! ## C3: the lazy daily reset -/

/-- C3: `reset_if_needed()` resets `used_today` to 0, `last_reset` to now and
`status` to ACTIVE and returns true exactly when ≥ 24 h have elapsed since
`last_reset`, and otherwise returns false changing nothing; in particular a
loaded key with `used_today = 90000`, `daily_limit = 100000` and `last_reset`
30 hours (108000 s) in the past is reset to `used_today = 0`, ACTIVE by its
first availability check. -/
theorem reset_if_needed_iff_24h (now : Nat) (k : APIKey) :
    ((resetIfNeeded now k).1 = true ↔ 86400 ≤ now - k.last_reset) ∧
    (86400 ≤ now - k.last_reset →
      resetIfNeeded now k =
        (true, { k with used_today := 0, last_reset := now,
                        status := ProviderStatus.ACTIVE })) ∧
    (now - k.last_reset < 86400 → resetIfNeeded now k = (false, k)) ∧
    (isAvailable 108000
        { key := "k", provider := "gemini", daily_limit := 100000,
          used_today := 90000, last_reset := 0 } =
      (true, { key := "k", provider := "gemini", daily_limit := 100000,
               used_today := 0, last_reset := 108000,
               status := ProviderStatus.ACTIVE })) := by
  refine ⟨?_, fun h => ?_, fun h => ?_, by decide⟩
  · unfold resetIfNeeded
    split <;> simp_all
  · unfold resetIfNeeded
    rw [if_pos h]
  · unfold resetIfNeeded
    rw [if_neg (by omega)]

/-- Witness for C3 at a concrete key 25 hours past its last reset. -/
theorem reset_if_needed_iff_24h_witness :
    resetIfNeeded 90000 { key := "a", provider := "gemini" } =
      (true, { key := "a", provider := "gemini", used_today := 0,
               last_reset := 90000, status := ProviderStatus.ACTIVE }) :=
  (reset_if_needed_iff_24h 90000
    { key := "a", provider := "gemini" }).2.1 (by decide)

/-! ## C2: HTTP 429 handling -/

/-- C2: an adapter receiving HTTP 429 marks the key RATE_LIMITED, leaves
`used_today` unchanged and returns `{success: false, error: "rate_limited"}`;
and a RATE_LIMITED key is not reactivated to ACTIVE by any generate-path
operation (lazy reset check, availability check, or any adapter call) while
less than 24 h have elapsed since `last_reset`. -/
theorem rate_limited_429 (prompt pname text : String) (now : Nat) (k : APIKey) :
    (adapterGenerate prompt pname (HttpOutcome.response 429 text) k =
      ({ success := false, error := some "rate_limited" },
       { k with status := ProviderStatus.RATE_LIMITED })) ∧
    ((adapterGenerate prompt pname (HttpOutcome.response 429 text) k).2.used_today
       = k.used_today) ∧
    (k.status = ProviderStatus.RATE_LIMITED → now - k.last_reset < 86400 →
      resetIfNeeded now k = (false, k) ∧
      isAvailable now k = (false, k) ∧
      keyAvailableP now k = false ∧
      ∀ o pn pr, ((adapterGenerate pr pn o k).2).status
        = ProviderStatus.RATE_LIMITED) := by
  refine ⟨rfl, rfl, fun hs ht => ?_⟩
  have hr : resetIfNeeded now k = (false, k) := by
    unfold resetIfNeeded
    rw [if_neg (by omega)]
  have ha : isAvailable now k = (false, k) := by
    unfold isAvailable
    rw [hr]
    simp [hs]
  refine ⟨hr, ha, by unfold keyAvailableP; rw [ha], fun o pn pr => ?_⟩
  cases o with
  | response status text =>
    simp only [adapterGenerate]
    split_ifs
    · exact hs
    · rfl
    · exact hs
  | raised msg => exact hs

/-- Witness for C2 at a concrete rate-limited key one hour past its reset. -/
theorem rate_limited_429_witness :
    isAvailable 3600
        { key := "b", provider := "groq",
          status := ProviderStatus.RATE_LIMITED } =
      (false, { key := "b", provider := "groq",
                status := ProviderStatus.RATE_LIMITED }) :=
  ((rate_limited_429 "p" "groq" "" 3600
      { key := "b", provider := "groq",
        status := ProviderStatus.RATE_LIMITED }).2.2
    rfl (by decide)).2.1

/-! ## C8: is DISABLED terminal on the generate path? -/

/-- C8 counterexample: the claim says no generate-path operation ever changes
a DISABLED key's status, but the lazy reset inside `is_available` sets a
DISABLED key back to ACTIVE (and even selectable) once 24 h have elapsed
since `last_reset`. -/
theorem disabled_key_reactivated_counterexample :
    ((isAvailable 86400
        { key := "k", provider := "gemini",
          status := ProviderStatus.DISABLED }).2.status
      = ProviderStatus.ACTIVE) ∧
    ((isAvailable 86400
        { key := "k", provider := "gemini",
          status := ProviderStatus.DISABLED }).1 = true) ∧
    ProviderStatus.DISABLED ≠ ProviderStatus.ACTIVE := by decide

/-- C8 amended: no generate-path operation ever sets a key's status to
DISABLED, and within 24 h of `last_reset` a DISABLED key is untouched by the
reset check and the availability check (which reports it unavailable); but
once ≥ 24 h have elapsed the lazy reset sets any key — DISABLED included —
back to ACTIVE, so DISABLED is not terminal across the daily reset. -/
theorem disabled_not_set_sticky_only_within_day (now : Nat) (k : APIKey) :
    ((resetIfNeeded now k).2.status = ProviderStatus.DISABLED →
       k.status = ProviderStatus.DISABLED) ∧
    ((isAvailable now k).2.status = ProviderStatus.DISABLED →
       k.status = ProviderStatus.DISABLED) ∧
    (∀ pr pn o, ((adapterGenerate pr pn o k).2).status = ProviderStatus.DISABLED →
       k.status = ProviderStatus.DISABLED) ∧
    (k.status = ProviderStatus.DISABLED → now - k.last_reset < 86400 →
       resetIfNeeded now k = (false, k) ∧ isAvailable now k = (false, k)) ∧
    (86400 ≤ now - k.last_reset →
       (resetIfNeeded now k).2.status = ProviderStatus.ACTIVE) := by
  refine ⟨?_, ?_, fun pr pn o => ?_, fun hs ht => ?_, fun h => ?_⟩
  · unfold resetIfNeeded
    split <;> simp_all
  · rw [isAvailable_snd]
    by_cases h : 86400 ≤ now - k.last_reset
    · rw [reset_fire now k h]
      intro hh
      simp at hh
    · rw [reset_skip now k (by omega)]
      exact id
  · cases o with
    | response status text =>
      simp only [adapterGenerate]
      split_ifs
      · exact id
      · exact fun hh => absurd hh (by decide)
      · exact id
    | raised msg => exact id
  · have hr : resetIfNeeded now k = (false, k) := by
      unfold resetIfNeeded
      rw [if_neg (by omega)]
    refine ⟨hr, ?_⟩
    unfold isAvailable
    rw [hr]
    simp [hs]
  · unfold resetIfNeeded
    rw [if_pos h]

/-- Witness for the amended C8 at a concrete DISABLED key. -/
theorem disabled_not_set_sticky_only_within_day_witness :
    (resetIfNeeded 86400
        { key := "k", provider := "gemini",
          status := ProviderStatus.DISABLED }).2.status
      = ProviderStatus.ACTIVE :=
  (disabled_not_set_sticky_only_within_day 86400
    { key := "k", provider := "gemini",
      status := ProviderStatus.DISABLED }).2.2.2.2 (by decide)

/-! ## Round-robin key scan characterisation (C4, C5, C7) -/

theorem keyAt_getElem? (ks : List APIKey) (i : Nat) (h : i < ks.length) :
    ks[i]? = some (keyAt ks i) := by
  rw [List.getElem?_eq_getElem h, keyAt, List.getD_eq_getElem _ _ h]

theorem mod_shift_ne (n c d : Nat) (hc : c < n) (hd1 : 0 < d) (hd2 : d < n) :
    (c + d) % n ≠ c := by
  intro h
  have h1 : (c + d) % n = (c + 0) % n := by
    simpa [Nat.mod_eq_of_lt hc] using h
  have h2 : d % n = 0 % n := Nat.ModEq.add_left_cancel' c h1
  rw [Nat.zero_mod] at h2
  have h3 : d % n = d := Nat.mod_eq_of_lt hd2
  omega

/-- What one bounded scan of `get_next_available_key` does, by induction on
the remaining fuel: either some position `c + j` (mod the key count) within
the fuel budget is the first whose `is_available` check passes — then the
(lazily reset) key there and its index are returned and the cursor stops just
past it — or every position within the budget fails and `none` is returned
with the cursor advanced `fuel` steps. -/
theorem gnakGo_spec (now : Nat) (fuel : Nat) :
    ∀ (p : Provider), fuel ≤ p.api_keys.length →
      p.current_key_index < p.api_keys.length →
      ∃ res q,
        gnakGo now fuel p = some (res, q) ∧
        q.api_keys.length = p.api_keys.length ∧
        q.name = p.name ∧
        ((∃ j, j < fuel ∧
            (∀ i, i < j →
              keyAvailableP now
                (keyAt p.api_keys
                  ((p.current_key_index + i) % p.api_keys.length)) = false) ∧
            keyAvailableP now
              (keyAt p.api_keys
                ((p.current_key_index + j) % p.api_keys.length)) = true ∧
            res = some
              ((isAvailable now
                 (keyAt p.api_keys
                   ((p.current_key_index + j) % p.api_keys.length))).2,
               (p.current_key_index + j) % p.api_keys.length) ∧
            q.current_key_index
              = (p.current_key_index + j + 1) % p.api_keys.length) ∨
         ((∀ i, i < fuel →
              keyAvailableP now
                (keyAt p.api_keys
                  ((p.current_key_index + i) % p.api_keys.length)) = false) ∧
            res = none ∧
            q.current_key_index
              = (p.current_key_index + fuel) % p.api_keys.length)) := by
  induction fuel with
  | zero =>
    intro p hf hc
    exact ⟨none, p, rfl, rfl, rfl,
      Or.inr ⟨fun i hi => absurd hi (by omega), rfl,
        by rw [Nat.add_zero, Nat.mod_eq_of_lt hc]⟩⟩
  | succ fuel ih =>
    intro p hf hc
    have hn : 0 < p.api_keys.length := by omega
    have hk := keyAt_getElem? p.api_keys p.current_key_index hc
    simp only [gnakGo, hk]
    by_cases hav :
        (isAvailable now (keyAt p.api_keys p.current_key_index)).1 = true
    · rw [if_pos hav]
      refine ⟨_, _, rfl, by simp, rfl,
        Or.inl ⟨0, by omega, fun i hi => absurd hi (by omega), ?_, ?_, ?_⟩⟩
      · rw [Nat.add_zero, Nat.mod_eq_of_lt hc]
        exact hav
      · rw [Nat.add_zero, Nat.mod_eq_of_lt hc]
      · simp only [Nat.add_zero]
    · rw [if_neg hav]
      have hav' :
          (isAvailable now (keyAt p.api_keys p.current_key_index)).1 = false :=
        by simpa using hav
      obtain ⟨res, q, heq, hlen, hname, hcase⟩ :=
        ih { name := p.name,
             api_keys := p.api_keys.set p.current_key_index
               ((isAvailable now (keyAt p.api_keys p.current_key_index)).2),
             current_key_index :=
               (p.current_key_index + 1) % p.api_keys.length }
           (by simp only [List.length_set]; omega)
           (by simp only [List.length_set]; exact Nat.mod_lt _ hn)
      simp only [List.length_set] at hlen
      have hpos : ∀ i,
          ((p.current_key_index + 1) % p.api_keys.length + i)
              % p.api_keys.length
            = (p.current_key_index + (i + 1)) % p.api_keys.length := by
        intro i
        rw [Nat.mod_add_mod]
        congr 1
        omega
      have hkeep : ∀ d, 0 < d → d < p.api_keys.length →
          keyAt (p.api_keys.set p.current_key_index
              ((isAvailable now (keyAt p.api_keys p.current_key_index)).2))
            ((p.current_key_index + d) % p.api_keys.length)
          = keyAt p.api_keys
              ((p.current_key_index + d) % p.api_keys.length) := by
        intro d hd1 hd2
        exact keyAt_set_ne _ _ _ _
          (Ne.symm (mod_shift_ne _ _ _ hc hd1 hd2))
      refine ⟨res, q, heq, by rw [hlen], hname, ?_⟩
      rcases hcase with ⟨j, hj, hprev, hava, hres, hcur⟩ | ⟨hall, hres, hcur⟩
      · simp only [List.length_set, hpos] at hprev hava hres hcur
        rw [hkeep (j + 1) (by omega) (by omega)] at hava hres
        refine Or.inl ⟨j + 1, by omega, ?_, hava, hres, ?_⟩
        · intro i hi
          cases i with
          | zero =>
            rw [Nat.add_zero, Nat.mod_eq_of_lt hc]
            exact hav'
          | succ i' =>
            have h1 := hprev i' (by omega)
            rw [hkeep (i' + 1) (by omega) (by omega)] at h1
            exact h1
        · rw [hcur,
            show (p.current_key_index + 1) % p.api_keys.length + j + 1
                = (p.current_key_index + 1) % p.api_keys.length + (j + 1)
              from by omega,
            Nat.mod_add_mod]
          congr 1
          omega
      · simp only [List.length_set, hpos] at hall hcur
        refine Or.inr ⟨?_, hres, ?_⟩
        · intro i hi
          cases i with
          | zero =>
            rw [Nat.add_zero, Nat.mod_eq_of_lt hc]
            exact hav'
          | succ i' =>
            have h1 := hall i' (by omega)
            rw [hkeep (i' + 1) (by omega) (by omega)] at h1
            exact h1
        · exact hcur

/-- Packaged outcome specification for one `get_next_available_key` call on a
provider whose cursor is in range: the scan visits at most `len(keys)`
positions starting at the cursor, returns the first key whose `is_available`
is true (lazily reset, with its index), leaves the cursor just past it, and
returns `none` with the cursor back where it started (one full wrap) if no
key qualifies. -/
def gnakSpec (now : Nat) (p : Provider)
    (out : Option (APIKey × Nat) × Provider) : Prop :=
  out.2.api_keys.length = p.api_keys.length ∧
  ((∃ j, j < p.api_keys.length ∧
      (∀ i, i < j →
        keyAvailableP now
          (keyAt p.api_keys
            ((p.current_key_index + i) % p.api_keys.length)) = false) ∧
      keyAvailableP now
        (keyAt p.api_keys
          ((p.current_key_index + j) % p.api_keys.length)) = true ∧
      out.1 = some
        ((isAvailable now
           (keyAt p.api_keys
             ((p.current_key_index + j) % p.api_keys.length))).2,
         (p.current_key_index + j) % p.api_keys.length) ∧
      out.2.current_key_index
        = (p.current_key_index + j + 1) % p.api_keys.length) ∨
   ((∀ i, i < p.api_keys.length →
        keyAvailableP now
          (keyAt p.api_keys
            ((p.current_key_index + i) % p.api_keys.length)) = false) ∧
      out.1 = none ∧
      out.2.current_key_index = p.current_key_index))

/-- C4: `get_next_available_key` performs a bounded round-robin scan of at
most `len(keys)` positions from `current_key_index`, advancing the cursor
modulo the length at every visited position, returns the first key whose
`is_available` is true, and returns `None` with the cursor back at its start
(a full wrap of advances) when none qualifies; the cursor persists in the
provider in either case.  The in-range cursor hypothesis also implies the
key list is non-empty. -/
theorem get_next_available_key_spec (now : Nat) (p : Provider)
    (hc : p.current_key_index < p.api_keys.length) :
    ∃ out, getNextAvailableKey now p = some out ∧ gnakSpec now p out := by
  obtain ⟨res, q, heq, hlen, _, hcase⟩ :=
    gnakGo_spec now p.api_keys.length p (le_refl _) hc
  refine ⟨(res, q), heq, hlen, ?_⟩
  rcases hcase with hfound | ⟨hall, hres, hcur⟩
  · exact Or.inl hfound
  · refine Or.inr ⟨hall, hres, ?_⟩
    rw [hcur, Nat.add_mod_right, Nat.mod_eq_of_lt hc]

/-- A fixture: one rate-limited key followed by one fresh key. -/
def pDemo : Provider :=
  { name := "gemini",
    api_keys := [{ key := "k1", provider := "gemini",
                   status := ProviderStatus.RATE_LIMITED },
                 { key := "k2", provider := "gemini" }] }

/-- Witness for C4 on the two-key fixture. -/
theorem get_next_available_key_spec_witness :
    ∃ out, getNextAvailableKey 0 pDemo = some out ∧ gnakSpec 0 pDemo out :=
  get_next_available_key_spec 0 pDemo (by decide)

/-! ## C5: fairness of the round-robin -/

theorem mod_cursor_shift (n c i : Nat) :
    ((c + 1) % n + i) % n = (c + (i + 1)) % n := by
  rw [Nat.mod_add_mod]
  congr 1
  omega

/-- A key that is ACTIVE, under quota and less than 24 h past its reset
passes its availability check unchanged. -/
theorem isAvailable_stable (now : Nat) (k : APIKey)
    (h1 : k.status = ProviderStatus.ACTIVE)
    (h2 : k.used_today < k.daily_limit)
    (h3 : now - k.last_reset < 86400) :
    isAvailable now k = (true, k) := by
  have hr := reset_skip now k h3
  have hsnd := isAvailable_snd now k
  have hfst := isAvailable_fst now k
  rw [hr] at hsnd hfst
  have hfst' : (isAvailable now k).1 = true := by
    rw [hfst]
    simp [h1]
    omega
  exact Prod.ext hfst' hsnd

/-- With every key available and no reset pending, one scan returns the key
under the cursor and advances the cursor one step. -/
theorem gnak_all_available (now : Nat) (p : Provider)
    (hc : p.current_key_index < p.api_keys.length)
    (hall : ∀ k ∈ p.api_keys, k.status = ProviderStatus.ACTIVE ∧
        k.used_today < k.daily_limit ∧ now - k.last_reset < 86400) :
    getNextAvailableKey now p =
      some (some (keyAt p.api_keys p.current_key_index, p.current_key_index),
        { p with current_key_index :=
            (p.current_key_index + 1) % p.api_keys.length }) := by
  have hk := keyAt_getElem? p.api_keys p.current_key_index hc
  have hmem : keyAt p.api_keys p.current_key_index ∈ p.api_keys := by
    rw [keyAt, List.getD_eq_getElem _ _ hc]
    exact List.getElem_mem hc
  obtain ⟨h1, h2, h3⟩ := hall _ hmem
  have hstable := isAvailable_stable now _ h1 h2 h3
  obtain ⟨m, hm⟩ : ∃ m, p.api_keys.length = m + 1 :=
    ⟨p.api_keys.length - 1, by omega⟩
  unfold getNextAvailableKey
  rw [show gnakGo now p.api_keys.length p = gnakGo now (m + 1) p from
    by rw [hm]]
  simp only [gnakGo, hk, hstable, if_true]
  rw [set_keyAt_self p.api_keys p.current_key_index hc]

/-- `m` consecutive calls to `get_next_available_key` (the spec's "k
consecutive calls"), threading the provider state. -/
def gnakCalls (now : Nat) : Nat → Provider →
    Option (List (Option (APIKey × Nat)) × Provider)
  | 0, p => some ([], p)
  | m + 1, p =>
    match getNextAvailableKey now p with
    | none => none
    | some (res, p1) =>
      match gnakCalls now m p1 with
      | none => none
      | some (rs, q) => some (res :: rs, q)

/-- With every key available and no reset pending, `m` consecutive calls
return the keys at cursor, cursor+1, ... (mod the key count) in order. -/
theorem gnakCalls_all_available (now : Nat) (m : Nat) :
    ∀ (p : Provider), p.current_key_index < p.api_keys.length →
      (∀ k ∈ p.api_keys, k.status = ProviderStatus.ACTIVE ∧
          k.used_today < k.daily_limit ∧ now - k.last_reset < 86400) →
      gnakCalls now m p =
        some ((List.range m).map (fun i =>
                some (keyAt p.api_keys
                        ((p.current_key_index + i) % p.api_keys.length),
                      (p.current_key_index + i) % p.api_keys.length)),
              { p with current_key_index :=
                  (p.current_key_index + m) % p.api_keys.length }) := by
  induction m with
  | zero =>
    intro p hc hall
    simp only [gnakCalls, List.range_zero, List.map_nil]
    rw [Nat.add_zero, Nat.mod_eq_of_lt hc]
  | succ m ih =>
    intro p hc hall
    have hn : 0 < p.api_keys.length := by omega
    have hc1 : (p.current_key_index + 1) % p.api_keys.length
        < p.api_keys.length := Nat.mod_lt _ hn
    have ih1 := ih
      { p with current_key_index :=
          (p.current_key_index + 1) % p.api_keys.length }
      hc1 hall
    rw [gnakCalls, gnak_all_available now p hc hall]
    simp only [ih1]
    rw [List.range_succ_eq_map, List.map_cons, List.map_map]
    refine congrArg some (Prod.ext ?_ ?_)
    · simp only [Nat.add_zero, Nat.mod_eq_of_lt hc]
      refine congrArg₂ List.cons rfl ?_
      refine List.map_congr_left ?_
      intro i hi
      simp only [Function.comp]
      rw [mod_cursor_shift]
    · simp only []
      rw [mod_cursor_shift]

/-- Packaged fairness specification: the `len(keys)` consecutive calls
succeed, and the returned key indices are the cursor positions
`c, c+1, ...` mod the key count — pairwise distinct and covering every key
index, i.e. each key is returned exactly once before any repeats. -/
def fairnessSpec (now : Nat) (p : Provider) : Prop :=
  ∃ rs q, gnakCalls now p.api_keys.length p = some (rs, q) ∧
    rs.length = p.api_keys.length ∧
    rs = (List.range p.api_keys.length).map (fun i =>
      some (keyAt p.api_keys
              ((p.current_key_index + i) % p.api_keys.length),
            (p.current_key_index + i) % p.api_keys.length)) ∧
    ((List.range p.api_keys.length).map
      (fun i => (p.current_key_index + i) % p.api_keys.length)).Nodup ∧
    ∀ t, t < p.api_keys.length →
      t ∈ (List.range p.api_keys.length).map
        (fun i => (p.current_key_index + i) % p.api_keys.length)

/-- C5: on a provider whose keys are all available (ACTIVE, under quota, no
pending lazy reset, so availability does not change during the calls),
`len(keys)` consecutive calls to `get_next_available_key` return each key
exactly once before any key repeats. -/
theorem fairness_k_calls (now : Nat) (p : Provider)
    (hc : p.current_key_index < p.api_keys.length)
    (hall : ∀ k ∈ p.api_keys, k.status = ProviderStatus.ACTIVE ∧
        k.used_today < k.daily_limit ∧ now - k.last_reset < 86400) :
    fairnessSpec now p := by
  have hn : 0 < p.api_keys.length := by omega
  refine ⟨_, _, gnakCalls_all_available now p.api_keys.length p hc hall,
    by simp, rfl, ?_, ?_⟩
  · refine List.Nodup.map_on ?_ (List.nodup_range _)
    intro i hi j hj hij
    rw [List.mem_range] at hi hj
    have h2 : i % p.api_keys.length = j % p.api_keys.length :=
      Nat.ModEq.add_left_cancel' p.current_key_index hij
    rw [Nat.mod_eq_of_lt hi, Nat.mod_eq_of_lt hj] at h2
    exact h2
  · intro t ht
    refine List.mem_map.mpr
      ⟨(t + p.api_keys.length - p.current_key_index) % p.api_keys.length,
       List.mem_range.mpr (Nat.mod_lt _ hn), ?_⟩
    rw [Nat.add_mod_mod,
      show p.current_key_index
          + (t + p.api_keys.length - p.current_key_index)
          = t + p.api_keys.length from by omega,
      Nat.add_mod_right, Nat.mod_eq_of_lt ht]

/-- A fixture: three fresh keys on one provider. -/
def pFair : Provider :=
  { name := "groq",
    api_keys := [{ key := "g1", provider := "groq", daily_limit := 500000 },
                 { key := "g2", provider := "groq", daily_limit := 500000 },
                 { key := "g3", provider := "groq", daily_limit := 500000 }] }

/-- Witness for C5 on the three-key fixture. -/
theorem fairness_k_calls_witness : fairnessSpec 0 pFair :=
  fairness_k_calls 0 pFair (by decide) (by decide)

/-! ## The retry loop (C1, C9, C10) -/

/-- The provider round-robin never touches the stats dictionary. -/
theorem gnpGo_stats (now : Nat) (fuel : Nat) :
    ∀ (r : Rotator) (out : Option Nat × Rotator),
      gnpGo now fuel r = some out → out.2.stats = r.stats := by
  induction fuel with
  | zero =>
    intro r out h
    simp only [gnpGo, Option.some.injEq] at h
    rw [← h]
  | succ fuel ih =>
    intro r out h
    simp only [gnpGo] at h
    split at h
    · exact Option.noConfusion h
    · split at h
      · exact Option.noConfusion h
      · split at h
        · simp only [Option.some.injEq] at h
          rw [← h]
        · have h2 := ih _ _ h
          exact h2

theorem getNextProvider_stats (now : Nat) (r : Rotator)
    (out : Option Nat × Rotator) (h : getNextProvider now r = some out) :
    out.2.stats = r.stats :=
  gnpGo_stats now r.providers.length r out h

theorem setKeyAt_stats (r : Rotator) (pidx kidx : Nat) (k : APIKey) :
    (setKeyAt r pidx kidx k).stats = r.stats := by
  unfold setKeyAt
  split
  all_goals rfl

/-- Overwriting a usage counter and reading it back. -/
theorem usageGet_usageSet (u : List (String × Nat)) (name : String) (v : Nat) :
    usageGet (usageSet u name v) name = v := by
  induction u with
  | nil => simp [usageSet, usageGet, List.find?]
  | cons e es ih =>
    by_cases h : e.1 == name
    · simp [usageSet, usageGet, List.find?, h]
    · simp only [usageSet, h, Bool.false_eq_true, if_false]
      simpa [usageGet, List.find?, h] using ih

/-- An adapter result is success-shaped or failure-shaped: success carries a
text and a provider name and no error key, failure carries an error and
neither text nor provider. -/
theorem adapter_success_shape (prompt pname : String) (o : HttpOutcome)
    (k : APIKey) (h : (adapterGenerate prompt pname o k).1.success = true) :
    (adapterGenerate prompt pname o k).1.provider = some pname ∧
    ((adapterGenerate prompt pname o k).1.text).isSome = true ∧
    (adapterGenerate prompt pname o k).1.error = none := by
  cases o with
  | response status text =>
    simp only [adapterGenerate] at h ⊢
    split_ifs at h ⊢
    all_goals simp_all
  | raised msg => simp [adapterGenerate] at h

/-- What the retry loop guarantees, by induction on the remaining budget:
the attempt counter grows by at most the budget and the final state's
`total_requests` is untouched; and either the budget ran out — the result is
the `all_providers_exhausted` failure, `failed_requests` was incremented once
and nothing else changed — or some attempt's adapter call succeeded and was
returned immediately: the result is that adapter's success dictionary,
`successful_requests` was incremented once, the per-provider usage counter of
the returned provider name was incremented once and `failed_requests` was
untouched. -/
theorem generateGo_spec (prompt : String) (clock : Nat → Nat)
    (oracle : Nat → HttpOutcome) (fuel : Nat) :
    ∀ (attempt : Nat) (r : Rotator) (res : GenResult) (r' : Rotator) (a : Nat),
      generateGo prompt clock oracle fuel attempt r = some (res, r', a) →
      attempt ≤ a ∧ a ≤ attempt + fuel ∧
      r'.stats.total_requests = r.stats.total_requests ∧
      ((res = { success := false, error := some "all_providers_exhausted" } ∧
        r'.stats.successful_requests = r.stats.successful_requests ∧
        r'.stats.failed_requests = r.stats.failed_requests + 1 ∧
        r'.stats.provider_usage = r.stats.provider_usage) ∨
       (res.success = true ∧
        res.text.isSome = true ∧
        res.error = none ∧
        (∃ name, res.provider = some name ∧
          usageGet r'.stats.provider_usage name
            = usageGet r.stats.provider_usage name + 1) ∧
        r'.stats.successful_requests = r.stats.successful_requests + 1 ∧
        r'.stats.failed_requests = r.stats.failed_requests)) := by
  induction fuel with
  | zero =>
    intro attempt r res r' a h
    simp only [generateGo, Option.some.injEq, Prod.mk.injEq] at h
    obtain ⟨hres, hr', ha⟩ := h
    subst hres
    subst hr'
    subst ha
    exact ⟨le_refl _, by omega, rfl, Or.inl ⟨rfl, rfl, rfl, rfl⟩⟩
  | succ fuel ih =>
    intro attempt r res r' a h
    simp only [generateGo] at h
    split at h
    · exact Option.noConfusion h
    · rename_i r1 heq1
      obtain ⟨h1, h2, h3, h4⟩ := ih _ _ _ _ _ h
      have hst : r1.stats = r.stats :=
        getNextProvider_stats _ _ _ heq1
      rw [hst] at h3 h4
      exact ⟨by omega, by omega, h3, h4⟩
    · rename_i pidx r1 heq1
      have hst : r1.stats = r.stats :=
        getNextProvider_stats _ _ _ heq1
      split at h
      · exact Option.noConfusion h
      · rename_i p heq2
        split at h
        · exact Option.noConfusion h
        · rename_i p1 heq3
          obtain ⟨h1, h2, h3, h4⟩ := ih _ _ _ _ _ h
          rw [show ({ r1 with
              providers := r1.providers.set pidx p1 } : Rotator).stats
              = r.stats from hst] at h3 h4
          exact ⟨by omega, by omega, h3, h4⟩
        · rename_i k kidx p1 heq3
          have hst3 : (setKeyAt
              { r1 with providers := r1.providers.set pidx p1 } pidx kidx
              (adapterGenerate prompt p1.name (oracle attempt) k).2).stats
              = r.stats := by
            rw [setKeyAt_stats]
            exact hst
          split at h
          · rename_i hsucc
            simp only [Option.some.injEq, Prod.mk.injEq] at h
            obtain ⟨hres, hr', ha⟩ := h
            subst hres
            subst ha
            obtain ⟨hprov, htext, herr⟩ :=
              adapter_success_shape prompt p1.name (oracle attempt) k hsucc
            have hstats := congrArg Rotator.stats hr'
            simp only [] at hstats
            rw [hst3] at hstats
            refine ⟨by omega, by omega, ?_,
              Or.inr ⟨hsucc, htext, herr, ⟨p1.name, hprov, ?_⟩, ?_, ?_⟩⟩
            · rw [← hstats]
            · rw [← hstats]
              exact usageGet_usageSet _ _ _
            · rw [← hstats]
            · rw [← hstats]
          · rename_i hfail
            obtain ⟨h1, h2, h3, h4⟩ := ih _ _ _ _ _ h
            rw [hst3] at h3 h4
            exact ⟨by omega, by omega, h3, h4⟩

/-- C1: with retry budget `m`, `generate` consumes at most `m` loop attempts
(each performing one provider-selection via `get_next_provider`); if no
attempt's adapter call succeeds, it increments `failed_requests` once and
returns `{success: false, error: "all_providers_exhausted"}`; on the first
adapter success it increments `successful_requests` once, increments the
per-provider usage counter of the provider it used, and returns that
adapter's result immediately (the loop stops, leaving `failed_requests` and
the rest of the budget untouched). -/
theorem generate_bounded_retries (prompt : String) (clock : Nat → Nat)
    (oracle : Nat → HttpOutcome) (m : Nat) (r : Rotator) (res : GenResult)
    (r' : Rotator) (a : Nat)
    (h : generate prompt clock oracle m r = some (res, r', a)) :
    a ≤ m ∧
    ((res = { success := false, error := some "all_providers_exhausted" } ∧
      r'.stats.failed_requests = r.stats.failed_requests + 1 ∧
      r'.stats.successful_requests = r.stats.successful_requests ∧
      r'.stats.provider_usage = r.stats.provider_usage) ∨
     (res.success = true ∧
      (∃ name, res.provider = some name ∧
        usageGet r'.stats.provider_usage name
          = usageGet r.stats.provider_usage name + 1) ∧
      r'.stats.successful_requests = r.stats.successful_requests + 1 ∧
      r'.stats.failed_requests = r.stats.failed_requests)) := by
  unfold generate at h
  obtain ⟨h1, h2, h3, h4⟩ := generateGo_spec prompt clock oracle m 0 _ res r' a h
  refine ⟨by omega, ?_⟩
  rcases h4 with ⟨hres, hs, hf, hu⟩ | ⟨hs, _, _, husage, hsucc, hfail⟩
  · exact Or.inl ⟨hres, hf, hs, hu⟩
  · exact Or.inr ⟨hs, husage, hsucc, hfail⟩

/-- A fixture rotator: one gemini provider holding one fresh key. -/
def rDemo : Rotator :=
  { providers := [{ name := "gemini",
                    api_keys := [{ key := "kg", provider := "gemini",
                                   daily_limit := 1500000 }] }] }

/-- The run of `generate` on the fixture when every HTTP response is a 500:
both attempts fail and the budget is exhausted. -/
def demoFailOut : GenResult × Rotator × Nat :=
  (generate "hi" (fun _ => 0) (fun _ => HttpOutcome.response 500 "") 2
    rDemo).getD ({ success := false }, rDemo, 0)

/-- Witness for C1 on the all-500 run. -/
theorem generate_bounded_retries_witness :
    demoFailOut.2.2 ≤ 2 ∧
    ((demoFailOut.1
        = { success := false, error := some "all_providers_exhausted" } ∧
      demoFailOut.2.1.stats.failed_requests
        = rDemo.stats.failed_requests + 1 ∧
      demoFailOut.2.1.stats.successful_requests
        = rDemo.stats.successful_requests ∧
      demoFailOut.2.1.stats.provider_usage
        = rDemo.stats.provider_usage) ∨
     (demoFailOut.1.success = true ∧
      (∃ name, demoFailOut.1.provider = some name ∧
        usageGet demoFailOut.2.1.stats.provider_usage name
          = usageGet rDemo.stats.provider_usage name + 1) ∧
      demoFailOut.2.1.stats.successful_requests
        = rDemo.stats.successful_requests + 1 ∧
      demoFailOut.2.1.stats.failed_requests
        = rDemo.stats.failed_requests)) :=
  generate_bounded_retries "hi" (fun _ => 0)
    (fun _ => HttpOutcome.response 500 "") 2 rDemo
    demoFailOut.1 demoFailOut.2.1 demoFailOut.2.2 (by rfl)

/-- C9 counterexample: the claim says a caller never receives success with a
silent empty text, but a 200 response whose payload extraction yields the
empty string is returned as `{success: true, text: ""}` by `generate`. -/
theorem generate_empty_text_counterexample :
    (generate "hi" (fun _ => 0) (fun _ => HttpOutcome.response 200 "") 5
        rDemo).map (fun x => x.1)
      = some { success := true, text := some "",
               provider := some "gemini" } := by rfl

/-- C9 amended: every result a caller receives from `generate` is either
success-shaped — success flag true, a text string (possibly empty, when the
vendor's 200 response contained no extractable text), the provider name, and
no error key — or failure-shaped: success flag false, an error value, and
neither text nor provider keys; never a result carrying neither a text nor
an error indication. -/
theorem generate_result_shape (prompt : String) (clock : Nat → Nat)
    (oracle : Nat → HttpOutcome) (m : Nat) (r : Rotator) (res : GenResult)
    (r' : Rotator) (a : Nat)
    (h : generate prompt clock oracle m r = some (res, r', a)) :
    (res.success = true ∧ res.text.isSome = true ∧ res.error = none ∧
     res.provider.isSome = true) ∨
    (res.success = false ∧ res.error.isSome = true ∧ res.text = none ∧
     res.provider = none) := by
  unfold generate at h
  obtain ⟨_, _, _, h4⟩ := generateGo_spec prompt clock oracle m 0 _ res r' a h
  rcases h4 with ⟨hres, _⟩ | ⟨hs, ht, he, ⟨name, hp, _⟩, _, _⟩
  · subst hres
    exact Or.inr ⟨rfl, rfl, rfl, rfl⟩
  · exact Or.inl ⟨hs, ht, he, by rw [hp]; rfl⟩

/-- The run of `generate` on the fixture when the vendor answers 200 with
text "ok". -/
def demoOkOut : GenResult × Rotator × Nat :=
  (generate "hi" (fun _ => 0) (fun _ => HttpOutcome.response 200 "ok") 3
    rDemo).getD ({ success := false }, rDemo, 0)

/-- Witness for the amended C9 on the 200/"ok" run. -/
theorem generate_result_shape_witness :
    (demoOkOut.1.success = true ∧ demoOkOut.1.text.isSome = true ∧
     demoOkOut.1.error = none ∧ demoOkOut.1.provider.isSome = true) ∨
    (demoOkOut.1.success = false ∧ demoOkOut.1.error.isSome = true ∧
     demoOkOut.1.text = none ∧ demoOkOut.1.provider = none) :=
  generate_result_shape "hi" (fun _ => 0)
    (fun _ => HttpOutcome.response 200 "ok") 3 rDemo
    demoOkOut.1 demoOkOut.2.1 demoOkOut.2.2 (by rfl)

/-- C10: every completed `generate` call increments `total_requests` by one
and exactly one of `successful_requests` / `failed_requests` by one, so the
invariant `total_requests = successful_requests + failed_requests` is
preserved. -/
theorem generate_stats_partition (prompt : String) (clock : Nat → Nat)
    (oracle : Nat → HttpOutcome) (m : Nat) (r : Rotator) (res : GenResult)
    (r' : Rotator) (a : Nat)
    (h : generate prompt clock oracle m r = some (res, r', a)) :
    r'.stats.total_requests = r.stats.total_requests + 1 ∧
    ((r'.stats.successful_requests = r.stats.successful_requests + 1 ∧
      r'.stats.failed_requests = r.stats.failed_requests) ∨
     (r'.stats.failed_requests = r.stats.failed_requests + 1 ∧
      r'.stats.successful_requests = r.stats.successful_requests)) ∧
    (r.stats.total_requests
        = r.stats.successful_requests + r.stats.failed_requests →
      r'.stats.total_requests
        = r'.stats.successful_requests + r'.stats.failed_requests) := by
  unfold generate at h
  obtain ⟨_, _, h3, h4⟩ := generateGo_spec prompt clock oracle m 0 _ res r' a h
  have htot : r'.stats.total_requests = r.stats.total_requests + 1 := h3
  rcases h4 with ⟨_, hs, hf, _⟩ | ⟨_, _, _, _, hs, hf⟩
  · have hs' : r'.stats.successful_requests = r.stats.successful_requests := hs
    have hf' : r'.stats.failed_requests = r.stats.failed_requests + 1 := hf
    exact ⟨htot, Or.inr ⟨hf', hs'⟩, fun hinv => by omega⟩
  · have hs' : r'.stats.successful_requests
        = r.stats.successful_requests + 1 := hs
    have hf' : r'.stats.failed_requests = r.stats.failed_requests := hf
    exact ⟨htot, Or.inl ⟨hs', hf'⟩, fun hinv => by omega⟩

/-- Witness for C10 on the 200/"ok" run. -/
theorem generate_stats_partition_witness :
    demoOkOut.2.1.stats.total_requests = rDemo.stats.total_requests + 1 ∧
    ((demoOkOut.2.1.stats.successful_requests
        = rDemo.stats.successful_requests + 1 ∧
      demoOkOut.2.1.stats.failed_requests = rDemo.stats.failed_requests) ∨
     (demoOkOut.2.1.stats.failed_requests
        = rDemo.stats.failed_requests + 1 ∧
      demoOkOut.2.1.stats.successful_requests
        = rDemo.stats.successful_requests)) ∧
    (rDemo.stats.total_requests
        = rDemo.stats.successful_requests + rDemo.stats.failed_requests →
      demoOkOut.2.1.stats.total_requests
        = demoOkOut.2.1.stats.successful_requests
          + demoOkOut.2.1.stats.failed_requests) :=
  generate_stats_partition "hi" (fun _ => 0)
    (fun _ => HttpOutcome.response 200 "ok") 3 rDemo
    demoOkOut.1 demoOkOut.2.1 demoOkOut.2.2 (by rfl)

/-! ## Persistence (C6, C7) -/

/-- Element of a provider list at a position (with a default out of range). -/
def provAt (ps : List Provider) (i : Nat) : Provider :=
  ps.getD i { name := "", api_keys := [] }

theorem applyKeys_length (ks : List APIKey) :
    ∀ (ss : List KeyState), (applyKeys ks ss).length = ks.length := by
  induction ks with
  | nil =>
    intro ss
    cases ss with
    | nil => rfl
    | cons s ss => rfl
  | cons k ks ih =>
    intro ss
    cases ss with
    | nil => rfl
    | cons s ss =>
      simp only [applyKeys, List.length_cons, ih ss]

/-- Restoring a provider's own saved key states reproduces the observable
key fields positionally. -/
theorem applyKeys_map_save : ∀ (fks rks : List APIKey),
    fks.length = rks.length →
    (applyKeys fks (rks.map saveKey)).map keyObs = rks.map keyObs := by
  intro fks
  induction fks with
  | nil =>
    intro rks hlen
    cases rks with
    | nil => rfl
    | cons r rs => simp at hlen
  | cons f fs ih =>
    intro rks hlen
    cases rks with
    | nil => simp at hlen
    | cons r rs =>
      simp only [List.map_cons, applyKeys, List.length_cons] at hlen ⊢
      exact congrArg₂ List.cons rfl (ih rs (by omega))

/-- A persisted provider entry whose name matches no provider in the list
leaves the head untouched through the whole fold. -/
theorem loadProviders_skip : ∀ (ss : List ProviderState) (p0 : Provider)
    (ps : List Provider), p0.name ∉ ss.map ProviderState.name →
    loadProviders (p0 :: ps) ss = p0 :: loadProviders ps ss := by
  intro ss
  induction ss with
  | nil => intro p0 ps _; rfl
  | cons s ss ih =>
    intro p0 ps hni
    simp only [List.map_cons, List.mem_cons, not_or] at hni
    obtain ⟨hne, hni'⟩ := hni
    simp only [loadProviders, List.foldl_cons, List.map_cons,
      beq_eq_false_iff_ne.mpr hne, Bool.false_eq_true, if_false]
    exact ih p0 (ps.map fun p =>
      if p.name == s.name then applyProviderState p s else p) hni'

/-- Unfolding one persisted provider entry of the `load_state` double loop. -/
theorem loadProviders_cons_state (ps : List Provider) (s : ProviderState)
    (ss : List ProviderState) :
    loadProviders ps (s :: ss) =
      loadProviders (ps.map (fun p =>
        if p.name == s.name then applyProviderState p s else p)) ss := rfl

/-- Loading the saved provider entries of `r` into a fresh provider list with
the same (duplicate-free) names applies each entry exactly to its positional
counterpart. -/
theorem loadProviders_roundtrip : ∀ (rps fps : List Provider),
    fps.map Provider.name = rps.map Provider.name →
    (rps.map Provider.name).Nodup →
    loadProviders fps (rps.map saveProvider) =
      List.zipWith (fun f r => applyProviderState f (saveProvider r)) fps rps := by
  intro rps
  induction rps with
  | nil =>
    intro fps hnames _
    have hfps : fps = [] := List.map_eq_nil_iff.mp (by rw [hnames]; rfl)
    subst hfps
    rfl
  | cons r rs ih =>
    intro fps hnames hnodup
    cases fps with
    | nil => simp at hnames
    | cons f fs =>
      simp only [List.map_cons, List.cons.injEq] at hnames
      obtain ⟨hname, hnames1⟩ := hnames
      simp only [List.map_cons, List.nodup_cons] at hnodup
      obtain ⟨hnotin, hnodup1⟩ := hnodup
      have hb : (f.name == (saveProvider r).name) = true := beq_iff_eq.mpr hname
      have hmapid : fs.map (fun p =>
          if p.name == (saveProvider r).name
          then applyProviderState p (saveProvider r) else p) = fs := by
        have h1 : ∀ g ∈ fs,
            (if g.name == (saveProvider r).name
             then applyProviderState g (saveProvider r) else g) = id g := by
          intro g hg
          have hgname : g.name ∈ rs.map Provider.name := by
            rw [← hnames1]
            exact List.mem_map_of_mem Provider.name hg
          have hgne : g.name ≠ r.name := fun he => hnotin (he ▸ hgname)
          have hbf : (g.name == (saveProvider r).name) = false :=
            beq_eq_false_iff_ne.mpr hgne
          rw [if_neg (by rw [hbf]; exact Bool.false_ne_true)]
          rfl
        exact (List.map_congr_left h1).trans (List.map_id fs)
      have hsnames : (rs.map saveProvider).map ProviderState.name
          = rs.map Provider.name := by
        rw [List.map_map]
        exact List.map_congr_left (fun a _ => rfl)
      have hni : (applyProviderState f (saveProvider r)).name
          ∉ (rs.map saveProvider).map ProviderState.name := by
        rw [hsnames]
        intro hmem
        exact hnotin (by
          rwa [show (applyProviderState f (saveProvider r)).name = r.name
            from hname] at hmem)
      rw [List.map_cons, loadProviders_cons_state, List.map_cons,
        if_pos hb, hmapid,
        loadProviders_skip (rs.map saveProvider)
          (applyProviderState f (saveProvider r)) fs hni,
        ih fs hnames1 hnodup1]
      rfl

/-- Positionally applying each provider's own saved entry reproduces the
observable provider fields. -/
theorem zipWith_apply_obs : ∀ (rps fps : List Provider),
    fps.map Provider.name = rps.map Provider.name →
    fps.map (fun p => p.api_keys.length)
      = rps.map (fun p => p.api_keys.length) →
    (List.zipWith (fun f r => applyProviderState f (saveProvider r))
        fps rps).map provObs
      = rps.map provObs := by
  intro rps
  induction rps with
  | nil =>
    intro fps _ _
    simp
  | cons r rs ih =>
    intro fps hnames hkeys
    cases fps with
    | nil => simp at hnames
    | cons f fs =>
      simp only [List.map_cons, List.cons.injEq] at hnames hkeys
      obtain ⟨hname, hnames1⟩ := hnames
      obtain ⟨hklen, hkeys1⟩ := hkeys
      simp only [List.zipWith_cons_cons, List.map_cons]
      refine congrArg₂ List.cons ?_ (ih fs hnames1 hkeys1)
      show (f.name, r.current_key_index,
        (applyKeys f.api_keys (r.api_keys.map saveKey)).map keyObs)
        = (r.name, r.current_key_index, r.api_keys.map keyObs)
      rw [hname, applyKeys_map_save f.api_keys r.api_keys hklen]

/-- C6: `save_state` followed by `load_state` into a freshly constructed
rotator with the same configuration (same provider names in the same order,
duplicate-free, and the same per-provider key counts) reproduces an
observably equivalent state: the same stats dictionary, the same
`current_provider_index`, and — matching providers by name (positionally
identical here) and keys by positional index — the same per-provider
`current_key_index` and per-key `used_today`, `last_reset`, `status` and
`error_count`. -/
theorem save_load_roundtrip (r f : Rotator)
    (hnames : f.providers.map Provider.name = r.providers.map Provider.name)
    (hnodup : (r.providers.map Provider.name).Nodup)
    (hkeys : f.providers.map (fun p => p.api_keys.length)
        = r.providers.map (fun p => p.api_keys.length)) :
    (loadState f (saveState r)).stats = r.stats ∧
    (loadState f (saveState r)).current_provider_index
      = r.current_provider_index ∧
    (loadState f (saveState r)).providers.map provObs
      = r.providers.map provObs := by
  refine ⟨rfl, rfl, ?_⟩
  show (loadProviders f.providers (r.providers.map saveProvider)).map provObs
      = r.providers.map provObs
  rw [loadProviders_roundtrip r.providers f.providers hnames hnodup]
  exact zipWith_apply_obs r.providers f.providers hnames hkeys

/-- A fixture rotator with a used, partly rate-limited state. -/
def rSaved : Rotator :=
  { providers :=
      [{ name := "gemini", current_key_index := 1,
         api_keys := [{ key := "a1", provider := "gemini", used_today := 120,
                        last_reset := 5,
                        status := ProviderStatus.RATE_LIMITED,
                        error_count := 2 },
                      { key := "a2", provider := "gemini",
                        used_today := 7 }] },
       { name := "groq", current_key_index := 0,
         api_keys := [{ key := "b1", provider := "groq",
                        daily_limit := 500000, used_today := 40 }] }],
    current_provider_index := 1,
    stats := { total_requests := 9, successful_requests := 6,
               failed_requests := 3,
               provider_usage := [("gemini", 4), ("groq", 2)] } }

/-- A freshly constructed rotator with the same configuration as `rSaved`. -/
def rFresh : Rotator :=
  { providers :=
      [{ name := "gemini",
         api_keys := [{ key := "a1", provider := "gemini" },
                      { key := "a2", provider := "gemini" }] },
       { name := "groq",
         api_keys := [{ key := "b1", provider := "groq",
                        daily_limit := 500000 }] }] }

/-- Witness for C6 on the two-provider fixture. -/
theorem save_load_roundtrip_witness :
    (loadState rFresh (saveState rSaved)).stats = rSaved.stats ∧
    (loadState rFresh (saveState rSaved)).current_provider_index
      = rSaved.current_provider_index ∧
    (loadState rFresh (saveState rSaved)).providers.map provObs
      = rSaved.providers.map provObs :=
  save_load_roundtrip rSaved rFresh (by decide) (by decide) (by decide)

/-- The key scan never changes the number of keys. -/
theorem gnakGo_length (now : Nat) : ∀ (fuel : Nat) (p : Provider)
    (out : Option (APIKey × Nat) × Provider),
    gnakGo now fuel p = some out →
    out.2.api_keys.length = p.api_keys.length := by
  intro fuel
  induction fuel with
  | zero =>
    intro p out h
    simp only [gnakGo, Option.some.injEq] at h
    rw [← h]
  | succ fuel ih =>
    intro p out h
    simp only [gnakGo] at h
    split at h
    · exact Option.noConfusion h
    · split at h
      · simp only [Option.some.injEq] at h
        rw [← h]
        simp
      · have h2 := ih _ _ h
        simpa using h2

/-- A scan that found a key was over a non-empty key list. -/
theorem gnak_found_nonempty (now : Nat) (p : Provider) (x : APIKey × Nat)
    (p1 : Provider) (h : getNextAvailableKey now p = some (some x, p1)) :
    p1.api_keys ≠ [] := by
  have hlen : p1.api_keys.length = p.api_keys.length :=
    gnakGo_length now _ p (some x, p1) h
  intro hnil
  have h0 : p.api_keys.length = 0 := by
    rw [← hlen, hnil]
    rfl
  have h' : gnakGo now p.api_keys.length p = some (some x, p1) := h
  rw [h0] at h'
  simp [gnakGo] at h'

/-- A provider selected by the provider round-robin has a non-empty key
list (it just yielded a key during the availability probe). -/
theorem gnpGo_selected (now : Nat) : ∀ (fuel : Nat) (r : Rotator) (i : Nat)
    (q : Rotator), gnpGo now fuel r = some (some i, q) →
    ∃ p1, q.providers[i]? = some p1 ∧ p1.api_keys ≠ [] := by
  intro fuel
  induction fuel with
  | zero =>
    intro r i q h
    simp [gnpGo] at h
  | succ fuel ih =>
    intro r i q h
    simp only [gnpGo] at h
    split at h
    · exact Option.noConfusion h
    · rename_i p heqp
      split at h
      · exact Option.noConfusion h
      · rename_i found p1 heqk
        split at h
        · rename_i x
          simp only [Option.some.injEq, Prod.mk.injEq] at h
          obtain ⟨hi, hq⟩ := h
          have hlt : r.current_provider_index < r.providers.length :=
            (List.getElem?_eq_some.mp heqp).1
          refine ⟨p1, ?_, gnak_found_nonempty now p x p1 heqk⟩
          rw [← hq, ← hi]
          show (r.providers.set r.current_provider_index p1)[r.current_provider_index]? = some p1
          exact List.getElem?_set_eq_of_lt p1 hlt
        · exact ih _ _ _ h

/-- Restoring a rotator's own saved state into a same-configuration fresh
rotator preserves each provider's key cursor and key count. -/
theorem load_preserves_cursors (r f : Rotator)
    (hnames : f.providers.map Provider.name = r.providers.map Provider.name)
    (hnodup : (r.providers.map Provider.name).Nodup)
    (hkeys : f.providers.map (fun p => p.api_keys.length)
        = r.providers.map (fun p => p.api_keys.length))
    (i : Nat) (hi : i < r.providers.length) :
    (provAt (loadState f (saveState r)).providers i).current_key_index
      = (provAt r.providers i).current_key_index ∧
    (provAt (loadState f (saveState r)).providers i).api_keys.length
      = (provAt r.providers i).api_keys.length := by
  have hflen : f.providers.length = r.providers.length := by
    have h1 := congrArg List.length hnames
    simpa using h1
  have hload : (loadState f (saveState r)).providers
      = List.zipWith (fun g s => applyProviderState g (saveProvider s))
          f.providers r.providers :=
    loadProviders_roundtrip r.providers f.providers hnames hnodup
  have hzlen : (List.zipWith (fun g s => applyProviderState g (saveProvider s))
      f.providers r.providers).length = r.providers.length := by
    rw [List.length_zipWith]
    omega
  have hiz : i < (List.zipWith
      (fun g s => applyProviderState g (saveProvider s))
      f.providers r.providers).length := by
    rw [hzlen]
    exact hi
  have hif : i < f.providers.length := by omega
  rw [hload, provAt, List.getD_eq_getElem _ _ hiz, provAt,
    List.getD_eq_getElem _ _ hi, List.getElem_zipWith (h := hiz)]
  refine ⟨rfl, ?_⟩
  have h1 : (applyProviderState (f.providers.get ⟨i, hif⟩)
      (saveProvider (r.providers.get ⟨i, hi⟩))).api_keys.length
      = (f.providers.get ⟨i, hif⟩).api_keys.length :=
    applyKeys_length _ _
  have hb1 : i < (f.providers.map (fun p => p.api_keys.length)).length := by
    simpa using hif
  have hb2 : i < (r.providers.map (fun p => p.api_keys.length)).length := by
    simpa using hi
  have h2 : (f.providers.map (fun p => p.api_keys.length)).getD i 0
      = (r.providers.map (fun p => p.api_keys.length)).getD i 0 := by
    rw [hkeys]
  rw [List.getD_eq_getElem _ _ hb1, List.getD_eq_getElem _ _ hb2,
    List.getElem_map, List.getElem_map] at h2
  exact h1.trans h2

/-- C7: the key cursor stays a valid index across the operations that touch
it — `get_next_available_key` keeps an in-range cursor in range (and keeps
the key count), and `load_state` of a same-configuration rotator's own saved
state preserves each provider's cursor and key count (so validity); and a
provider with an empty key sequence is harmless: its scan returns `None`
without touching it, and the provider round-robin never selects a provider
with an empty key list. -/
theorem cursor_always_valid :
    (∀ (now : Nat) (p : Provider) (out : Option (APIKey × Nat) × Provider),
       p.current_key_index < p.api_keys.length →
       getNextAvailableKey now p = some out →
       out.2.api_keys.length = p.api_keys.length ∧
       out.2.current_key_index < out.2.api_keys.length) ∧
    (∀ (now : Nat) (p : Provider), p.api_keys = [] →
       getNextAvailableKey now p = some (none, p)) ∧
    (∀ (now : Nat) (r : Rotator) (i : Nat) (q : Rotator),
       getNextProvider now r = some (some i, q) →
       ∃ p1, q.providers[i]? = some p1 ∧ p1.api_keys ≠ []) ∧
    (∀ (r f : Rotator),
       f.providers.map Provider.name = r.providers.map Provider.name →
       (r.providers.map Provider.name).Nodup →
       f.providers.map (fun p => p.api_keys.length)
         = r.providers.map (fun p => p.api_keys.length) →
       ∀ i, i < r.providers.length →
       (provAt r.providers i).current_key_index
           < (provAt r.providers i).api_keys.length →
       (provAt (loadState f (saveState r)).providers i).current_key_index
         < (provAt (loadState f (saveState r)).providers i).api_keys.length) := by
  refine ⟨?_, ?_, ?_, ?_⟩
  · intro now p out hc heq
    obtain ⟨res, q, heq', hlen, _, hcase⟩ :=
      gnakGo_spec now p.api_keys.length p (le_refl _) hc
    have heq2 : (res, q) = out := by
      rw [show getNextAvailableKey now p = gnakGo now p.api_keys.length p
        from rfl, heq'] at heq
      exact Option.some.inj heq
    rw [← heq2]
    refine ⟨hlen, ?_⟩
    have hn : 0 < p.api_keys.length := by omega
    rcases hcase with ⟨j, _, _, _, _, hcur⟩ | ⟨_, _, hcur⟩
    · rw [hcur, hlen]
      exact Nat.mod_lt _ hn
    · rw [hcur, hlen, Nat.add_mod_right, Nat.mod_eq_of_lt hc]
      exact hc
  · intro now p he
    show gnakGo now p.api_keys.length p = some (none, p)
    rw [show p.api_keys.length = 0 from by simp [he]]
    rfl
  · intro now r i q h
    exact gnpGo_selected now r.providers.length r i q h
  · intro r f hnames hnodup hkeys i hi hvalid
    obtain ⟨hcur, hlen⟩ :=
      load_preserves_cursors r f hnames hnodup hkeys i hi
    rw [hcur, hlen]
    exact hvalid

/-- Witness for C7: a run of each conjunct on concrete fixtures. -/
theorem cursor_always_valid_witness :
    ((getNextAvailableKey 0 pDemo).map
        (fun out => out.2.current_key_index < out.2.api_keys.length))
      = some True ∧
    getNextAvailableKey 0 { name := "zai", api_keys := [] }
      = some (none, { name := "zai", api_keys := [] }) ∧
    ((provAt (loadState rFresh (saveState rSaved)).providers 0).current_key_index
      < (provAt (loadState rFresh (saveState rSaved)).providers 0).api_keys.length) := by
  refine ⟨?_, ?_, ?_⟩
  · obtain ⟨hlen, hcur⟩ := cursor_always_valid.1 0 pDemo
      ((getNextAvailableKey 0 pDemo).getD (none, pDemo))
      (by decide) (by rfl)
    rw [show getNextAvailableKey 0 pDemo
      = some ((getNextAvailableKey 0 pDemo).getD (none, pDemo)) from by rfl]
    simpa using hcur
  · exact cursor_always_valid.2.1 0 { name := "zai", api_keys := [] } rfl
  · exact cursor_always_valid.2.2.2 rSaved rFresh (by decide) (by decide)
      (by decide) 0 (by decide) (by decide)
